import Mathlib

/-!
Formal model of the civitai image scraper (source file main_3.6.py): the
download/deduplication pipeline built from the discovery stage
(_parse_card_container), the download worker (image_downloader), the
hash-and-persist worker (md5_analyzer), the two persistent history stores
(load_url_history / save_url_history and the md5 download_history), and the
stop-marker drain protocol in main.

Modelling conventions:
- raw image bytes are lists of naturals;
- the digest function hashlib.md5 is an external library call, modelled as an
  explicit parameter md5Impl of the pipeline steps (any concrete function can
  be substituted; all claims are independent of the digest internals);
- the filesystem is a list of (absolute path, contents) pairs; os.path.exists
  is membership of the path; all paths handled by the pipeline are already
  absolute (the source normalizes them with os.path.abspath, which is the
  identity on absolute paths, so abspath is modelled as the identity);
- the network fetch (aiohttp session.get + read) is an external collaborator,
  modelled as a parameter returning Option Bytes, none meaning any failure
  (timeout, connection error, raise_for_status);
- a Python dict is an association list with insert-replaces-keeping-position
  semantics; Python str.split, str.startswith, str.lower, str.isalpha are
  re-implemented character-wise (ASCII, which covers the URL and path data the
  pipeline handles).
-/

/-- Raw image bytes, as delivered by the network collaborator. -/
abbrev Bytes := List Nat

/-- Python dict with String keys, modelled as an association list in insertion
order. -/
abbrev Dict (α : Type) := List (String × α)

/-- Lookup in a Python-style dict (first, hence unique, matching key). -/
def dictLookup {α : Type} : Dict α → String → Option α
  | [], _ => none
  | (k', v) :: d, k => if k' = k then some v else dictLookup d k

/-- Python dict assignment: replace the value in place if the key is present,
otherwise append the new binding at the end (insertion order semantics). -/
def dictInsert {α : Type} : Dict α → String → α → Dict α
  | [], k, v => [(k, v)]
  | (k', v') :: d, k, v => if k' = k then (k, v) :: d else (k', v') :: dictInsert d k v

/-- Python str.split(sep) for a one-character separator: splits at every
occurrence, keeping empty pieces, never returning an empty list. -/
def pySplit (sep : Char) : List Char → List (List Char)
  | [] => [[]]
  | c :: cs =>
    match pySplit sep cs with
    | h :: t => if c = sep then [] :: h :: t else (c :: h) :: t
    | [] => [[c]]

/-- Python str.split(sep, 1) under two-element unpacking: some (before, after)
splits at the first occurrence of the separator; none models the ValueError
raised by the unpacking when the separator is absent. -/
def pySplitOnce (sep : Char) : List Char → Option (List Char × List Char)
  | [] => none
  | c :: cs =>
    if c = sep then some ([], cs)
    else
      match pySplitOnce sep cs with
      | some (a, b) => some (c :: a, b)
      | none => none

/-- Helper for Python str.startswith on character lists: does the second list
begin with the first. -/
def beginsWithChars : List Char → List Char → Bool
  | [], _ => true
  | _ :: _, [] => false
  | p :: ps, c :: cs => if p = c then beginsWithChars ps cs else false

/-- Python s.startswith(pre). -/
def pyStartsWith (s pre : String) : Bool := beginsWithChars pre.data s.data

/-- Python key.split(sep, 1) lifted to String, keeping the ValueError case as
none (used by save_url_history on the composite reference keys). -/
def splitFirstBar (s : String) : Option (String × String) :=
  match pySplitOnce '|' s.data with
  | some (a, b) => some (String.mk a, String.mk b)
  | none => none

/-- File extension derivation in image_downloader (main_3.6.py lines 418-421):
drop the query string, take the suffix after the last dot, lowercase it, and
fall back to jpg when the suffix is empty, longer than 5 characters, or not
purely alphabetic. -/
def fileExtensionOf (image_url : String) : String :=
  let url_without_query : List Char := (pySplit '?' image_url.data).headD []
  let extChars : List Char := ((pySplit '.' url_without_query).getLastD []).map Char.toLower
  if extChars = [] ∨ 5 < extChars.length ∨ ¬ (extChars.all Char.isAlpha = true)
  then "jpg" else String.mk extChars

/-- Composite key used by both history stores for a reference:
thumbnail URL, a bar separator, detail page URL (lines 121, 356, 415, 489). -/
def uniqueUrlKey (image_url original_page_url : String) : String :=
  image_url ++ "|" ++ original_page_url

/-- Entry of url_download_history: local path plus content md5. The empty
string models a missing or None md5 value (Python falsy). -/
structure UrlHistEntry where
  local_path : String
  image_md5 : String
  deriving DecidableEq

/-- One row of the exported result collection all_search_results_data. The
field names translate the Chinese keys of result_data_template: capture_time
抓取时间, search_url 搜索URL, thumbnail_url 缩略图URL, local_path 本地缩略图路径,
local_hyperlink 本地缩略图超链接, original_page_url 原始图片详情页链接, the five
reaction counts, keyword 关键词, and the image_md5 field added by the workers. -/
structure ResultRow where
  capture_time : String
  search_url : String
  thumbnail_url : String
  local_path : String
  local_hyperlink : String
  original_page_url : String
  like_count : Nat
  heart_count : Nat
  laugh_count : Nat
  sad_count : Nat
  tip_count : Nat
  keyword : String
  image_md5 : String
  deriving DecidableEq

/-- A task on image_download_queue: the tuple put by _parse_card_container
(line 399). -/
structure DownloadTask where
  image_url : String
  original_page_url : String
  base_folder_path : String
  template : ResultRow
  deriving DecidableEq

/-- A task on md5_analysis_queue: the tuple put by image_downloader
(line 451). -/
structure Md5Task where
  image_bytes : Bytes
  image_url : String
  original_page_url : String
  base_folder_path : String
  file_extension : String
  template : ResultRow
  deriving DecidableEq

/-- The mutable shared state of the pipeline: the filesystem (path to
contents), the md5-keyed download_history, the reference-keyed
url_download_history, and the shared result list all_search_results_data. -/
structure PipelineState where
  fs : List (String × Bytes)
  download_history : Dict String
  url_download_history : Dict UrlHistEntry
  results : List ResultRow
  deriving DecidableEq

/-- The process-start state: empty disk model, empty histories, no results. -/
def emptyState : PipelineState := ⟨[], [], [], []⟩

/-- os.path.exists for the modelled filesystem. -/
def pathExists : List (String × Bytes) → String → Bool
  | [], _ => false
  | e :: fs, p => if e.1 = p then true else pathExists fs p

/-- Canonical content-addressed storage path computed by md5_analyzer
(line 486): base folder, slash, content md5, dot, extension; os.path.join and
os.path.abspath over an absolute base folder reduce to this concatenation. -/
def canonicalPath (base md5v ext : String) : String :=
  base ++ "/" ++ md5v ++ "." ++ ext

/-- Result row completion shared by the cache-hit branch of image_downloader
(lines 458-465) and by md5_analyzer (lines 524-528): fill the local path, the
file hyperlink, and the content md5 into the template. -/
def filledRow (template : ResultRow) (path md5v : String) : ResultRow :=
  { template with
    local_path := path
    local_hyperlink := "file:///" ++ path
    image_md5 := md5v }

/-- Cache check of image_downloader (lines 428-441): a url_download_history
hit is valid only when the recorded local path still exists on disk; a stale
hit (file missing) is treated as a miss. -/
def validCacheHit (st : PipelineState) (key : String) : Option UrlHistEntry :=
  match dictLookup st.url_download_history key with
  | some info => if pathExists st.fs info.local_path then some info else none
  | none => none

/-- One loop iteration of image_downloader (lines 406-469) on a real task:
derive the extension, consult url_download_history, either publish the cached
result row directly (valid hit with a truthy path), or fetch the bytes and
forward an Md5Task to the analysis queue, or drop the task on fetch failure or
non-http URL. The parameter fetch models the network collaborator. Returns the
updated state and the forwarded task, if any. -/
def image_downloader_step (fetch : String → Option Bytes) (st : PipelineState)
    (task : DownloadTask) : PipelineState × Option Md5Task :=
  let unique_url_key := uniqueUrlKey task.image_url task.original_page_url
  let file_extension := fileExtensionOf task.image_url
  match validCacheHit st unique_url_key with
  | some info =>
    if info.local_path ≠ "" then
      ({ st with results := st.results ++ [filledRow task.template info.local_path info.image_md5] },
       none)
    else (st, none)
  | none =>
    if pyStartsWith task.image_url "http" then
      match fetch task.image_url with
      | some image_bytes =>
        (st, some ⟨image_bytes, task.image_url, task.original_page_url,
                   task.base_folder_path, file_extension, task.template⟩)
      | none => (st, none)
    else (st, none)

/-- Store updates and result publication at the end of md5_analyzer
(lines 517-531): record the path under the content md5 in download_history,
record path and md5 under the reference key in url_download_history, and
append the completed result row. -/
def md5_finish (st : PipelineState) (key path md5v : String) (template : ResultRow) :
    PipelineState :=
  { st with
    download_history := dictInsert st.download_history md5v path
    url_download_history := dictInsert st.url_download_history key ⟨path, md5v⟩
    results := st.results ++ [filledRow template path md5v] }

/-- One loop iteration of md5_analyzer (lines 475-533) on a real task: compute
the content md5 and the canonical path; the download_history consultation at
lines 494-501 only logs and has no state effect; write the bytes when the
canonical path is absent from disk (writeOk models whether the aiofiles write
succeeds; on failure the task is dropped with no store update and no result
row, lines 510-513); finally update both histories and publish the row. -/
def md5_analyzer_step (md5Impl : Bytes → String) (writeOk : Bool)
    (st : PipelineState) (task : Md5Task) : PipelineState :=
  let image_content_md5 := md5Impl task.image_bytes
  let abs_local_filename :=
    canonicalPath task.base_folder_path image_content_md5 task.file_extension
  let unique_url_key := uniqueUrlKey task.image_url task.original_page_url
  if pathExists st.fs abs_local_filename then
    md5_finish st unique_url_key abs_local_filename image_content_md5 task.template
  else if writeOk then
    md5_finish { st with fs := st.fs ++ [(abs_local_filename, task.image_bytes)] }
      unique_url_key abs_local_filename image_content_md5 task.template
  else st

/-- Full processing of one download task through both pipeline stages: the
download worker step followed, when a task is forwarded, by the hash-and-
persist worker step. -/
def processTask (md5Impl : Bytes → String) (fetch : String → Option Bytes)
    (writeOk : Bool) (st : PipelineState) (task : DownloadTask) : PipelineState :=
  match image_downloader_step fetch st task with
  | (st1, none) => st1
  | (st1, some m) => md5_analyzer_step md5Impl writeOk st1 m

/-- Sequential draining of a list of download tasks by the download worker,
collecting the forwarded analysis tasks (models the dequeue-process-loop of
image_downloader over the FIFO queue contents). -/
def runDownloader (fetch : String → Option Bytes) :
    PipelineState → List DownloadTask → PipelineState × List Md5Task
  | st, [] => (st, [])
  | st, task :: rest =>
    match image_downloader_step fetch st task with
    | (st1, none) => runDownloader fetch st1 rest
    | (st1, some m) =>
      let r := runDownloader fetch st1 rest
      (r.1, m :: r.2)

/-- Classification of a download task as successfully resolved in state st:
either a valid reference-cache hit with a truthy recorded path, or a fetch
that succeeds followed by a persist that succeeds (file already present, or
disk write succeeding). Mirrors the branch structure of the two workers. -/
def taskResolved (md5Impl : Bytes → String) (fetch : String → Option Bytes)
    (writeOk : Bool) (st : PipelineState) (task : DownloadTask) : Bool :=
  match validCacheHit st (uniqueUrlKey task.image_url task.original_page_url) with
  | some info => info.local_path != ""
  | none =>
    if pyStartsWith task.image_url "http" then
      match fetch task.image_url with
      | some b =>
        pathExists st.fs
          (canonicalPath task.base_folder_path (md5Impl b) (fileExtensionOf task.image_url))
          || writeOk
      | none => false
    else false

/-- Fields a card container contributes to discovery, as extracted by the
HTML-parsing glue in _parse_card_container (lines 343-350 and 362-379): the
img src attribute (empty string models a missing img element or missing src)
and the href of the parent anchor (empty string models a missing anchor or
missing href), plus the best-effort reaction counts. -/
structure ImageCard where
  src : String
  href : String
  like_count : Nat
  heart_count : Nat
  laugh_count : Nat
  sad_count : Nat
  tip_count : Nat
  deriving DecidableEq

/-- Detail-page URL normalization (lines 349-350): a non-empty relative href
is prefixed with the site origin. -/
def normalizePageUrl (raw : String) : String :=
  if raw = "" then raw
  else if pyStartsWith raw "http" then raw
  else "https://civitai.com" ++ raw

/-- Result template created by discovery (lines 384-397): path, hyperlink and
md5 are left empty, to be filled by the download or analysis worker. -/
def mkTemplate (now target_url keyword : String) (thumbnail_url original_page_url : String)
    (card : ImageCard) : ResultRow :=
  { capture_time := now
    search_url := target_url
    thumbnail_url := thumbnail_url
    local_path := ""
    local_hyperlink := ""
    original_page_url := original_page_url
    like_count := card.like_count
    heart_count := card.heart_count
    laugh_count := card.laugh_count
    sad_count := card.sad_count
    tip_count := card.tip_count
    keyword := keyword
    image_md5 := "" }

/-- The dedup-and-enqueue logic of _parse_card_container (lines 334-400) on
one card: discard cards without an http thumbnail URL; skip cards whose
composite key is already in the per-run seen set processed_image_detail_urls;
otherwise add the key to the seen set and append the download task to the
queue. Returns the new seen set, the new queue, and the bool returned by the
source function. -/
def parse_card_container (now target_url keyword base : String) (card : ImageCard)
    (seen : List String) (queue : List DownloadTask) :
    List String × List DownloadTask × Bool :=
  let thumbnail_url := card.src
  let original_page_url := normalizePageUrl card.href
  if thumbnail_url = "" ∨ ¬ (pyStartsWith thumbnail_url "http" = true) then
    (seen, queue, false)
  else
    let key := thumbnail_url ++ "|" ++ original_page_url
    if key ∈ seen then (seen, queue, false)
    else
      (key :: seen,
       queue ++ [⟨thumbnail_url, original_page_url, base,
                  mkTemplate now target_url keyword thumbnail_url original_page_url card⟩],
       true)

/-- One discovery run (performCivitaiImageScrape lines 556-579): the scroll
loop re-parses snapshot after snapshot and feeds every card container through
parse_card_container, with the seen set and queue persisting across the whole
run; the card list is the concatenation of all snapshot parses in order. -/
def discoverCards (now target_url keyword base : String) :
    List ImageCard → List String → List DownloadTask → List String × List DownloadTask
  | [], seen, queue => (seen, queue)
  | card :: rest, seen, queue =>
    let r := parse_card_container now target_url keyword base card seen queue
    discoverCards now target_url keyword base rest r.1 r.2.1

/-- Number of tasks on the queue for a given (thumbnail URL, detail page URL)
pair. -/
def countPair (queue : List DownloadTask) (t p : String) : Nat :=
  (queue.filter (fun task => decide (task.image_url = t ∧ task.original_page_url = p))).length

/-- Header row written and expected by the url_download_history Excel file
(lines 113-124 and 140). -/
def historyHeaders : List String :=
  ["Thumbnail URL", "Original Page URL", "Local Image Path", "MD5 (Content)"]

/-- A worksheet: the header row and the data rows; a cell holds a string, the
empty string modelling an empty cell (openpyxl None, Python falsy). -/
structure Sheet where
  header : List String
  rows : List (List String)
  deriving DecidableEq

/-- Accumulator walk for rowGet: scan header and cells in parallel; a later
column with the same header name overwrites the accumulator, matching the
Python dict comprehension at line 115 where later duplicate keys win. -/
def rowGetGo (name : String) : List String → List String → String → String
  | [], _, acc => acc
  | h :: hs, cells, acc =>
    rowGetGo name hs cells.tail (if h = name then cells.headD "" else acc)

/-- Value of the named column in a row, as produced by row_data.get(name) at
lines 115-118: empty string when the name is absent from the header or the
cell is missing. -/
def rowGet (header cells : List String) (name : String) : String :=
  rowGetGo name header cells ""

/-- Row loop of load_url_history (lines 114-125): keep a row only when the
thumbnail URL, the page URL and the local path are all truthy, and insert it
under the composite key; malformed rows contribute nothing. -/
def loadRows (header : List String) : Dict UrlHistEntry → List (List String) → Dict UrlHistEntry
  | acc, [] => acc
  | acc, row :: rest =>
    if rowGet header row "Thumbnail URL" ≠ "" ∧ rowGet header row "Original Page URL" ≠ "" ∧
        rowGet header row "Local Image Path" ≠ "" then
      loadRows header
        (dictInsert acc
          (rowGet header row "Thumbnail URL" ++ "|" ++ rowGet header row "Original Page URL")
          ⟨rowGet header row "Local Image Path", rowGet header row "MD5 (Content)"⟩) rest
    else loadRows header acc rest

/-- Warning message logged by load_url_history when reading the workbook
raises (line 128). -/
def loadFailWarning : String := "Failed to load URL download history"

/-- load_url_history (lines 107-132) over the persisted file: none models a
missing file (store left as the initial value, informational log only);
Except.error models a file whose workbook load raises (store reset to empty,
one warning logged); Except.ok is a readable sheet, folded row by row with no
warnings. The second component lists the warnings emitted. -/
def load_url_history (init : Dict UrlHistEntry) :
    Option (Except Unit Sheet) → Dict UrlHistEntry × List String
  | none => (init, [])
  | some (Except.error _) => ([], [loadFailWarning])
  | some (Except.ok sheet) => (loadRows sheet.header init sheet.rows, [])

/-- Row construction loop of save_url_history (lines 143-148): each entry
becomes a row of thumbnail URL (key part before the first bar), page URL (rest
of the key), local path and md5; a key without a bar makes the two-element
unpacking raise, aborting the whole save before the workbook is written,
modelled as none. -/
def saveRows : Dict UrlHistEntry → Option (List (List String))
  | [] => some []
  | (k, d) :: rest =>
    match splitFirstBar k, saveRows rest with
    | some (a, b), some rs => some ([a, b, d.local_path, d.image_md5] :: rs)
    | _, _ => none

/-- save_url_history (lines 134-167): serialize the in-memory store to the
tabular sheet with the fixed header; none models the save aborting on a
malformed key (the file is then not written). -/
def save_url_history (store : Dict UrlHistEntry) : Option Sheet :=
  (saveRows store).map (fun rs => ⟨historyHeaders, rs⟩)

/-- Well-formedness of a row for load_url_history: the three URL and path
cells are non-empty. -/
def wellFormedRow (header row : List String) : Bool :=
  decide (rowGet header row "Thumbnail URL" ≠ "" ∧
    rowGet header row "Original Page URL" ≠ "" ∧
    rowGet header row "Local Image Path" ≠ "")

/-- State of the shutdown protocol of main (lines 628-680): the two FIFO
queues (none is a stop marker, some n a real task id), the running flags of
the download and analysis workers, and the multiset of real analysis tasks
actually processed. -/
structure DrainState where
  qA : List (Option Nat)
  qB : List (Option Nat)
  downloaders : List Bool
  analyzers : List Bool
  processedB : List Nat
  deriving DecidableEq

/-- Atomic events of the shutdown protocol: signalStop is main pushing one
stop marker per worker into both queues (lines 672-676, executed before main
awaits the downloader tasks); downloader i dequeues from queue A and either
stops on a marker or forwards the fetched task to queue B (lines 406-451 with
a successful fetch); analyzer i dequeues from queue B and either stops on a
marker or processes the task (lines 475-479). -/
inductive DrainStep where
  | signalStop
  | downloader (i : Nat)
  | analyzer (i : Nat)
  deriving DecidableEq

/-- Transition function of the shutdown protocol; a worker that has stopped or
would block on an empty queue leaves the state unchanged. -/
def drainStep (s : DrainState) (a : DrainStep) : DrainState :=
  match a with
  | DrainStep.signalStop =>
    { s with
      qA := s.qA ++ List.replicate s.downloaders.length none
      qB := s.qB ++ List.replicate s.analyzers.length none }
  | DrainStep.downloader i =>
    if s.downloaders.getD i false then
      match s.qA with
      | none :: restA => { s with qA := restA, downloaders := s.downloaders.set i false }
      | some t :: restA => { s with qA := restA, qB := s.qB ++ [some t] }
      | [] => s
    else s
  | DrainStep.analyzer i =>
    if s.analyzers.getD i false then
      match s.qB with
      | none :: restB => { s with qB := restB, analyzers := s.analyzers.set i false }
      | some t :: restB => { s with qB := restB, processedB := s.processedB ++ [t] }
      | [] => s
    else s

/-- Execution of a schedule of shutdown-protocol events. -/
def drainRun (s : DrainState) (sched : List DrainStep) : DrainState :=
  sched.foldl drainStep s

/-- Post-scrape initial state matching main: five downloaders, five analyzers
(num_downloaders = num_md5_analyzers = 5, lines 632-633), one discovered real
task still on the download queue, nothing forwarded yet. -/
def drainInit : DrainState :=
  ⟨[some 0], [], List.replicate 5 true, List.replicate 5 true, []⟩

/-- A schedule realizable in the source: main pushes all ten stop markers
(which it does before awaiting any worker), then downloader 0 finishes its
pending fetch and forwards the real task, then every downloader and every
analyzer drains its marker and stops. -/
def drainBugSchedule : List DrainStep :=
  [DrainStep.signalStop,
   DrainStep.downloader 0, DrainStep.downloader 0, DrainStep.downloader 1,
   DrainStep.downloader 2, DrainStep.downloader 3, DrainStep.downloader 4,
   DrainStep.analyzer 0, DrainStep.analyzer 1, DrainStep.analyzer 2,
   DrainStep.analyzer 3, DrainStep.analyzer 4]

/-- Decomposing the data of a composite reference key around the bar
separator. -/
lemma uniqueUrlKey_data (t p : String) :
    (uniqueUrlKey t p).data = t.data ++ '|' :: p.data := by
  cases t; cases p; simp [uniqueUrlKey, String.data_append]

/-- Splitting a list around a distinguished element that occurs in neither
left part is unambiguous. -/
lemma noSep_append_inj {l1 r1 l2 r2 : List Char} (h1 : '|' ∉ l1) (h2 : '|' ∉ l2)
    (h : l1 ++ '|' :: r1 = l2 ++ '|' :: r2) : l1 = l2 ∧ r1 = r2 := by
  induction l1 generalizing l2 with
  | nil =>
    cases l2 with
    | nil => simpa using h
    | cons c cs =>
      simp only [List.nil_append, List.cons_append, List.cons.injEq] at h
      exact absurd (h.1 ▸ List.mem_cons_self c cs) h2
  | cons a as ih =>
    cases l2 with
    | nil =>
      simp only [List.nil_append, List.cons_append, List.cons.injEq] at h
      exact absurd (h.1 ▸ List.mem_cons_self a as) h1
    | cons c cs =>
      simp only [List.cons_append, List.cons.injEq] at h
      have h1' : '|' ∉ as := fun hm => h1 (List.mem_cons_of_mem a hm)
      have h2' : '|' ∉ cs := fun hm => h2 (List.mem_cons_of_mem c hm)
      obtain ⟨heq, hr⟩ := ih h1' h2' h.2
      exact ⟨by rw [h.1, heq], hr⟩

/-- Composite keys determine the underlying URL pair as long as the thumbnail
URLs are free of the bar separator. -/
lemma uniqueUrlKey_inj {t1 p1 t2 p2 : String} (h1 : '|' ∉ t1.data) (h2 : '|' ∉ t2.data)
    (h : uniqueUrlKey t1 p1 = uniqueUrlKey t2 p2) : t1 = t2 ∧ p1 = p2 := by
  have hd := congrArg String.data h
  rw [uniqueUrlKey_data, uniqueUrlKey_data] at hd
  obtain ⟨ha, hb⟩ := noSep_append_inj h1 h2 hd
  exact ⟨String.ext ha, String.ext hb⟩

/-- Looking up the key just inserted returns the inserted value. -/
lemma dictLookup_insert_self {α : Type} (d : Dict α) (k : String) (v : α) :
    dictLookup (dictInsert d k v) k = some v := by
  induction d with
  | nil => simp [dictInsert, dictLookup]
  | cons e d ih =>
    by_cases hk : e.1 = k
    · simp [dictInsert, dictLookup, hk]
    · simp [dictInsert, dictLookup, hk, ih]

/-- Inserting a fresh key appends the binding at the end of the dict. -/
lemma dictInsert_fresh {α : Type} (d : Dict α) (k : String) (v : α)
    (h : dictLookup d k = none) : dictInsert d k v = d ++ [(k, v)] := by
  induction d with
  | nil => simp [dictInsert]
  | cons e d ih =>
    by_cases hk : e.1 = k
    · simp [dictLookup, hk] at h
    · simp [dictLookup, hk] at h
      simp [dictInsert, hk, ih h]

/-- Lookup distributes over dict concatenation, preferring the left part. -/
lemma dictLookup_append {α : Type} (d1 d2 : Dict α) (k : String) :
    dictLookup (d1 ++ d2) k =
      (match dictLookup d1 k with
       | some v => some v
       | none => dictLookup d2 k) := by
  induction d1 with
  | nil => simp [dictLookup]
  | cons e d ih =>
    by_cases hk : e.1 = k
    · simp [dictLookup, hk]
    · simp [dictLookup, hk, ih]

/-- Appending one task changes the pair count by one exactly when the task
carries that pair. -/
lemma countPair_append_single (queue : List DownloadTask) (task : DownloadTask) (t p : String) :
    countPair (queue ++ [task]) t p =
      countPair queue t p +
        (if task.image_url = t ∧ task.original_page_url = p then 1 else 0) := by
  simp only [countPair, List.filter_append, List.length_append]
  by_cases h : task.image_url = t ∧ task.original_page_url = p
  · simp [h]
  · simp [h]

/-- C3: claimed: after the discovery producer is finished, one stop marker per
worker is pushed into each queue, and every worker exits only after all real
tasks enqueued before its exit have been processed, so no real task (including
tasks forwarded from the download stage to the hash stage) is left unprocessed
when the workers stop. The code violates this: main pushes the stop markers
into the analysis queue before the downloaders are done (lines 672-676 run
before the gather at line 679), so a task forwarded after that point sits
behind all five markers in the FIFO analysis queue; every analyzer exits on a
marker and the task is never processed. This theorem exhibits the execution:
in the final state of the realizable schedule, every worker has stopped, the
analysis queue still holds the real task, and no real task was processed. -/
theorem C3_forwarded_task_stranded :
    (drainRun drainInit drainBugSchedule).downloaders = List.replicate 5 false ∧
    (drainRun drainInit drainBugSchedule).analyzers = List.replicate 5 false ∧
    (drainRun drainInit drainBugSchedule).qB = [some 0] ∧
    (drainRun drainInit drainBugSchedule).processedB = [] := by decide

/-- Digest instance used by the concrete counterexample runs below; the
violations exhibited do not depend on the digest internals. -/
def md5Fix : Bytes → String := fun _ => "d41d8cd98f00b204e9800998ecf8427e"

/-- Network collaborator for the C1 counterexample: every fetch succeeds with
the same byte payload. -/
def fetchSameBytes : String → Option Bytes := fun _ => some [1, 2, 3]

/-- Blank result template used by concrete runs. -/
def blankRow : ResultRow := ⟨"", "", "", "", "", "", 0, 0, 0, 0, 0, "", ""⟩

/-- First C1 task: the same payload reached through a jpg URL. -/
def taskJpg : DownloadTask := ⟨"http://e.com/a.jpg", "http://e.com/p1", "/img", blankRow⟩

/-- Second C1 task: the identical payload reached through a png URL. -/
def taskPng : DownloadTask := ⟨"http://e.com/a.png", "http://e.com/p2", "/img", blankRow⟩

/-- C1 counterexample: two download tasks whose fetched bytes are identical do
not always resolve to the same canonical local path, and more than one file
can be stored for one content hash: the canonical path embeds the URL-derived
extension, so the same bytes fetched from a jpg URL and from a png URL are
written to two distinct files. After processing both tasks from the empty
state, the disk holds two files with identical contents (hence identical
content hash) under different paths. -/
theorem C1_counterexample :
    fetchSameBytes taskJpg.image_url = fetchSameBytes taskPng.image_url ∧
    (processTask md5Fix fetchSameBytes true
        (processTask md5Fix fetchSameBytes true emptyState taskJpg) taskPng).fs =
      [("/img/d41d8cd98f00b204e9800998ecf8427e.jpg", [1, 2, 3]),
       ("/img/d41d8cd98f00b204e9800998ecf8427e.png", [1, 2, 3])] ∧
    "/img/d41d8cd98f00b204e9800998ecf8427e.jpg" ≠
      "/img/d41d8cd98f00b204e9800998ecf8427e.png" := by decide

/-- The download worker on a valid cache hit: no forwarding; the result row is
published when the recorded path is truthy. -/
lemma image_downloader_step_hit (fetch : String → Option Bytes) (st : PipelineState)
    (task : DownloadTask) (info : UrlHistEntry)
    (h : validCacheHit st (uniqueUrlKey task.image_url task.original_page_url) = some info) :
    image_downloader_step fetch st task =
      (if info.local_path ≠ "" then
        { st with results := st.results ++ [filledRow task.template info.local_path info.image_md5] }
       else st, none) := by
  unfold image_downloader_step
  simp only [h]
  split <;> rfl

/-- The download worker on a cache miss with a successful fetch: the state is
untouched and the bytes are forwarded to the analysis queue. -/
lemma image_downloader_step_forward (fetch : String → Option Bytes) (st : PipelineState)
    (task : DownloadTask) (b : Bytes)
    (hmiss : validCacheHit st (uniqueUrlKey task.image_url task.original_page_url) = none)
    (hhttp : pyStartsWith task.image_url "http" = true)
    (hfetch : fetch task.image_url = some b) :
    image_downloader_step fetch st task =
      (st, some ⟨b, task.image_url, task.original_page_url, task.base_folder_path,
                 fileExtensionOf task.image_url, task.template⟩) := by
  unfold image_downloader_step
  simp only [hmiss, hhttp, hfetch, if_true]

/-- The download worker on a cache miss with a failed fetch (or a URL that is
not fetchable at all): the state is untouched and nothing is forwarded. -/
lemma image_downloader_step_drop (fetch : String → Option Bytes) (st : PipelineState)
    (task : DownloadTask)
    (hmiss : validCacheHit st (uniqueUrlKey task.image_url task.original_page_url) = none)
    (hfail : fetch task.image_url = none) :
    image_downloader_step fetch st task = (st, none) := by
  unfold image_downloader_step
  by_cases hh : pyStartsWith task.image_url "http" = true
  · simp only [hmiss, hh, hfail, if_true]
  · simp [hmiss, hh]

/-- The analysis worker when the canonical path already exists on disk: no
write, stores updated, row published. -/
lemma md5_analyzer_step_exists (md5Impl : Bytes → String) (writeOk : Bool)
    (st : PipelineState) (task : Md5Task)
    (h : pathExists st.fs
      (canonicalPath task.base_folder_path (md5Impl task.image_bytes) task.file_extension) = true) :
    md5_analyzer_step md5Impl writeOk st task =
      md5_finish st (uniqueUrlKey task.image_url task.original_page_url)
        (canonicalPath task.base_folder_path (md5Impl task.image_bytes) task.file_extension)
        (md5Impl task.image_bytes) task.template := by
  unfold md5_analyzer_step
  simp [h]

/-- The analysis worker when the canonical path is absent and the write
succeeds: the file is written, stores updated, row published. -/
lemma md5_analyzer_step_write (md5Impl : Bytes → String)
    (st : PipelineState) (task : Md5Task)
    (h : pathExists st.fs
      (canonicalPath task.base_folder_path (md5Impl task.image_bytes) task.file_extension) = false) :
    md5_analyzer_step md5Impl true st task =
      md5_finish
        { st with fs := st.fs ++
            [(canonicalPath task.base_folder_path (md5Impl task.image_bytes) task.file_extension,
              task.image_bytes)] }
        (uniqueUrlKey task.image_url task.original_page_url)
        (canonicalPath task.base_folder_path (md5Impl task.image_bytes) task.file_extension)
        (md5Impl task.image_bytes) task.template := by
  unfold md5_analyzer_step
  simp [h]

/-- The analysis worker when the canonical path is absent and the write fails:
the task is dropped with no state change at all. -/
lemma md5_analyzer_step_writefail (md5Impl : Bytes → String)
    (st : PipelineState) (task : Md5Task)
    (h : pathExists st.fs
      (canonicalPath task.base_folder_path (md5Impl task.image_bytes) task.file_extension) = false) :
    md5_analyzer_step md5Impl false st task = st := by
  unfold md5_analyzer_step
  simp [h]

/-- Unfolding processTask when the download step forwards nothing. -/
lemma processTask_step_none (md5Impl : Bytes → String) (fetch : String → Option Bytes)
    (writeOk : Bool) (st st1 : PipelineState) (task : DownloadTask)
    (h : image_downloader_step fetch st task = (st1, none)) :
    processTask md5Impl fetch writeOk st task = st1 := by
  unfold processTask
  rw [h]

/-- Unfolding processTask when the download step forwards an analysis task. -/
lemma processTask_step_some (md5Impl : Bytes → String) (fetch : String → Option Bytes)
    (writeOk : Bool) (st st1 : PipelineState) (task : DownloadTask) (m : Md5Task)
    (h : image_downloader_step fetch st task = (st1, some m)) :
    processTask md5Impl fetch writeOk st task = md5_analyzer_step md5Impl writeOk st1 m := by
  unfold processTask
  rw [h]

/-- C1 (amended): hashing is deterministic, and two download tasks whose
fetched bytes are identical and whose destination directory and URL-derived
file extension also coincide resolve to the same canonical local path; running
both through the pipeline stores at most one copy: starting from the empty
state, after both tasks complete the disk holds exactly the one
content-addressed file. (The original claim, refuted by C1_counterexample,
omitted the extension condition: the canonical path embeds the URL-derived
extension, so identical bytes under different extensions produce two files.) -/
theorem C1_amended (md5Impl : Bytes → String) (fetch : String → Option Bytes)
    (b : Bytes) (t1 t2 : DownloadTask)
    (h1 : pyStartsWith t1.image_url "http" = true)
    (h2 : pyStartsWith t2.image_url "http" = true)
    (hf1 : fetch t1.image_url = some b)
    (hf2 : fetch t2.image_url = some b)
    (hbase : t2.base_folder_path = t1.base_folder_path)
    (hext : fileExtensionOf t2.image_url = fileExtensionOf t1.image_url) :
    canonicalPath t1.base_folder_path (md5Impl b) (fileExtensionOf t1.image_url) =
      canonicalPath t2.base_folder_path (md5Impl b) (fileExtensionOf t2.image_url) ∧
    (processTask md5Impl fetch true
        (processTask md5Impl fetch true emptyState t1) t2).fs =
      [(canonicalPath t1.base_folder_path (md5Impl b) (fileExtensionOf t1.image_url), b)] := by
  refine ⟨by rw [hbase, hext], ?_⟩
  have hmiss1 : validCacheHit emptyState (uniqueUrlKey t1.image_url t1.original_page_url) = none := rfl
  have hstep1 := image_downloader_step_forward fetch emptyState t1 b hmiss1 h1 hf1
  have hpe1 : pathExists emptyState.fs
      (canonicalPath t1.base_folder_path (md5Impl b) (fileExtensionOf t1.image_url)) = false := rfl
  have hst1 : processTask md5Impl fetch true emptyState t1 =
      PipelineState.mk
        [(canonicalPath t1.base_folder_path (md5Impl b) (fileExtensionOf t1.image_url), b)]
        [(md5Impl b, canonicalPath t1.base_folder_path (md5Impl b) (fileExtensionOf t1.image_url))]
        [(uniqueUrlKey t1.image_url t1.original_page_url,
          ⟨canonicalPath t1.base_folder_path (md5Impl b) (fileExtensionOf t1.image_url), md5Impl b⟩)]
        [filledRow t1.template
          (canonicalPath t1.base_folder_path (md5Impl b) (fileExtensionOf t1.image_url)) (md5Impl b)] := by
    rw [processTask_step_some md5Impl fetch true emptyState emptyState t1 _ hstep1,
        md5_analyzer_step_write md5Impl emptyState _ hpe1]
    simp [md5_finish, emptyState, dictInsert]
  rw [hst1]
  by_cases hk :
      uniqueUrlKey t1.image_url t1.original_page_url =
        uniqueUrlKey t2.image_url t2.original_page_url
  · -- the second task is a valid reference-cache hit: no download, no write
    have hhit : validCacheHit
        (PipelineState.mk
          [(canonicalPath t1.base_folder_path (md5Impl b) (fileExtensionOf t1.image_url), b)]
          [(md5Impl b, canonicalPath t1.base_folder_path (md5Impl b) (fileExtensionOf t1.image_url))]
          [(uniqueUrlKey t1.image_url t1.original_page_url,
            ⟨canonicalPath t1.base_folder_path (md5Impl b) (fileExtensionOf t1.image_url), md5Impl b⟩)]
          [filledRow t1.template
            (canonicalPath t1.base_folder_path (md5Impl b) (fileExtensionOf t1.image_url)) (md5Impl b)])
        (uniqueUrlKey t2.image_url t2.original_page_url) =
        some ⟨canonicalPath t1.base_folder_path (md5Impl b) (fileExtensionOf t1.image_url), md5Impl b⟩ := by
      simp [validCacheHit, dictLookup, hk, pathExists]
    rw [processTask_step_none md5Impl fetch true _ _ t2
        (image_downloader_step_hit fetch _ t2 _ hhit)]
    split <;> rfl
  · -- different reference key: fetched again, but the canonical path exists,
    -- so the write is skipped and the disk is unchanged
    have hmiss2 : validCacheHit
        (PipelineState.mk
          [(canonicalPath t1.base_folder_path (md5Impl b) (fileExtensionOf t1.image_url), b)]
          [(md5Impl b, canonicalPath t1.base_folder_path (md5Impl b) (fileExtensionOf t1.image_url))]
          [(uniqueUrlKey t1.image_url t1.original_page_url,
            ⟨canonicalPath t1.base_folder_path (md5Impl b) (fileExtensionOf t1.image_url), md5Impl b⟩)]
          [filledRow t1.template
            (canonicalPath t1.base_folder_path (md5Impl b) (fileExtensionOf t1.image_url)) (md5Impl b)])
        (uniqueUrlKey t2.image_url t2.original_page_url) = none := by
      simp [validCacheHit, dictLookup, hk]
    have hstep2 := image_downloader_step_forward fetch _ t2 b hmiss2 h2 hf2
    rw [processTask_step_some md5Impl fetch true _ _ t2 _ hstep2]
    have hpe2 : pathExists
        [(canonicalPath t1.base_folder_path (md5Impl b) (fileExtensionOf t1.image_url), b)]
        (canonicalPath t2.base_folder_path (md5Impl b) (fileExtensionOf t2.image_url)) = true := by
      rw [hbase, hext]
      simp [pathExists]
    rw [md5_analyzer_step_exists md5Impl true _ _ hpe2]
    rfl

/-- Second task for the C1 witness run: the same payload through another jpg
URL, so destination directory and derived extension coincide. -/
def taskJpg2 : DownloadTask := ⟨"http://e.com/b.jpg", "http://e.com/p3", "/img", blankRow⟩

/-- Witness for C1_amended at a concrete input: identical bytes through two
jpg URLs resolve to one canonical path and one stored file. -/
theorem C1_amended_witness :
    canonicalPath "/img" (md5Fix [1, 2, 3]) (fileExtensionOf "http://e.com/a.jpg") =
      canonicalPath "/img" (md5Fix [1, 2, 3]) (fileExtensionOf "http://e.com/b.jpg") ∧
    (processTask md5Fix fetchSameBytes true
        (processTask md5Fix fetchSameBytes true emptyState taskJpg) taskJpg2).fs =
      [(canonicalPath "/img" (md5Fix [1, 2, 3]) (fileExtensionOf "http://e.com/a.jpg"),
        [1, 2, 3])] :=
  C1_amended md5Fix fetchSameBytes [1, 2, 3] taskJpg taskJpg2
    (by decide) (by decide) rfl rfl rfl (by decide)

/-- First card of the C2 counterexample: its thumbnail URL contains the bar
separator used to build composite keys. -/
def cardX : ImageCard := ⟨"http://a|http://b", "http://c", 0, 0, 0, 0, 0⟩

/-- Second card of the C2 counterexample: a different (thumbnail, detail) pair
whose composite key collides with the key of cardX. -/
def cardY : ImageCard := ⟨"http://a", "http://b|http://c", 0, 0, 0, 0, 0⟩

/-- C2 counterexample: the per-run seen set deduplicates on the concatenated
string thumbnail-bar-detail, not on the pair itself, so two distinct pairs can
collide when a thumbnail URL contains the bar character. In the run below the
pair of cardY is encountered twice, yet zero (not exactly one) tasks for that
pair reach the download queue: the colliding key of cardX already sits in the
seen set. -/
theorem C2_counterexample :
    (([cardX, cardY, cardY].filter
        (fun c => decide (c.src = "http://a" ∧ c.href = "http://b|http://c"))).length = 2) ∧
    normalizePageUrl "http://b|http://c" = "http://b|http://c" ∧
    countPair (discoverCards "" "" "" "" [cardX, cardY, cardY] [] []).2
      "http://a" "http://b|http://c" = 0 ∧
    (discoverCards "" "" "" "" [cardX, cardY, cardY] [] []).2.length = 1 := by decide

/-- Discovery on a card without a usable http thumbnail: nothing changes. -/
lemma parse_card_container_invalid (now target keyword base : String) (card : ImageCard)
    (seen : List String) (queue : List DownloadTask)
    (h : card.src = "" ∨ ¬ (pyStartsWith card.src "http" = true)) :
    parse_card_container now target keyword base card seen queue = (seen, queue, false) := by
  unfold parse_card_container
  simp only [if_pos h]

/-- Discovery on a valid card whose composite key is already in the per-run
seen set: nothing changes. -/
lemma parse_card_container_dup (now target keyword base : String) (card : ImageCard)
    (seen : List String) (queue : List DownloadTask)
    (hval : ¬ (card.src = "" ∨ ¬ (pyStartsWith card.src "http" = true)))
    (hseen : card.src ++ "|" ++ normalizePageUrl card.href ∈ seen) :
    parse_card_container now target keyword base card seen queue = (seen, queue, false) := by
  unfold parse_card_container
  simp only [if_neg hval, if_pos hseen]

/-- Discovery on a valid, unseen card: the key joins the seen set and the
task joins the queue. -/
lemma parse_card_container_new (now target keyword base : String) (card : ImageCard)
    (seen : List String) (queue : List DownloadTask)
    (hval : ¬ (card.src = "" ∨ ¬ (pyStartsWith card.src "http" = true)))
    (hseen : card.src ++ "|" ++ normalizePageUrl card.href ∉ seen) :
    parse_card_container now target keyword base card seen queue =
      ((card.src ++ "|" ++ normalizePageUrl card.href) :: seen,
       queue ++ [⟨card.src, normalizePageUrl card.href, base,
                 mkTemplate now target keyword card.src (normalizePageUrl card.href) card⟩],
       true) := by
  unfold parse_card_container
  simp only [if_neg hval, if_neg hseen]

/-- One unfolding step of a discovery run. -/
lemma discoverCards_cons (now target keyword base : String) (card : ImageCard)
    (cs : List ImageCard) (seen : List String) (queue : List DownloadTask) :
    discoverCards now target keyword base (card :: cs) seen queue =
      discoverCards now target keyword base cs
        (parse_card_container now target keyword base card seen queue).1
        (parse_card_container now target keyword base card seen queue).2.1 := rfl

/-- Invariant of the discovery loop: provided every thumbnail URL in the run
is free of the bar separator, the number of queued tasks for a fixed valid
pair is one exactly when the pair has been seen or occurs among the remaining
cards, and zero otherwise. -/
lemma discover_countPair_inv (now target keyword base t p : String)
    (ht : '|' ∉ t.data) (hvalid : pyStartsWith t "http" = true) :
    ∀ (cards : List ImageCard) (seen : List String) (queue : List DownloadTask),
      (∀ c ∈ cards, '|' ∉ c.src.data) →
      countPair queue t p = (if (t ++ "|" ++ p) ∈ seen then 1 else 0) →
      countPair (discoverCards now target keyword base cards seen queue).2 t p =
        (if ((t ++ "|" ++ p) ∈ seen ∨ ∃ c ∈ cards, c.src = t ∧ normalizePageUrl c.href = p)
         then 1 else 0) := by
  intro cards
  induction cards with
  | nil =>
    intro seen queue _ hcount
    simp only [discoverCards]
    rw [hcount]
    apply if_congr _ rfl rfl
    simp
  | cons c cs ih =>
    intro seen queue hbars hcount
    have hbc : '|' ∉ c.src.data := hbars c (List.mem_cons_self c cs)
    have hbcs : ∀ x ∈ cs, '|' ∉ x.src.data := fun x hx => hbars x (List.mem_cons_of_mem c hx)
    rw [discoverCards_cons]
    by_cases hval : c.src = "" ∨ ¬ (pyStartsWith c.src "http" = true)
    · rw [parse_card_container_invalid now target keyword base c seen queue hval]
      have hnc : ¬ (c.src = t ∧ normalizePageUrl c.href = p) := by
        rintro ⟨hsrc, -⟩
        rcases hval with h0 | h0
        · rw [hsrc] at h0
          rw [h0] at hvalid
          exact absurd hvalid (by decide)
        · exact h0 (by rw [hsrc]; exact hvalid)
      rw [ih seen queue hbcs hcount]
      apply if_congr _ rfl rfl
      constructor
      · rintro (hm | ⟨x, hx, hxp⟩)
        · exact Or.inl hm
        · exact Or.inr ⟨x, List.mem_cons_of_mem c hx, hxp⟩
      · rintro (hm | ⟨x, hx, hxp⟩)
        · exact Or.inl hm
        · rcases List.mem_cons.mp hx with rfl | hx'
          · exact absurd hxp hnc
          · exact Or.inr ⟨x, hx', hxp⟩
    · by_cases hseen : c.src ++ "|" ++ normalizePageUrl c.href ∈ seen
      · rw [parse_card_container_dup now target keyword base c seen queue hval hseen]
        rw [ih seen queue hbcs hcount]
        apply if_congr _ rfl rfl
        by_cases hmatch : c.src = t ∧ normalizePageUrl c.href = p
        · have hm : (t ++ "|" ++ p) ∈ seen := by
            rw [← hmatch.1, ← hmatch.2]; exact hseen
          simp [hm]
        · constructor
          · rintro (hm | ⟨x, hx, hxp⟩)
            · exact Or.inl hm
            · exact Or.inr ⟨x, List.mem_cons_of_mem c hx, hxp⟩
          · rintro (hm | ⟨x, hx, hxp⟩)
            · exact Or.inl hm
            · rcases List.mem_cons.mp hx with rfl | hx'
              · exact absurd hxp hmatch
              · exact Or.inr ⟨x, hx', hxp⟩
      · rw [parse_card_container_new now target keyword base c seen queue hval hseen]
        by_cases hmatch : c.src = t ∧ normalizePageUrl c.href = p
        · have hkeyeq : c.src ++ "|" ++ normalizePageUrl c.href = t ++ "|" ++ p := by
            rw [hmatch.1, hmatch.2]
          have hnotm : (t ++ "|" ++ p) ∉ seen := by rw [← hkeyeq]; exact hseen
          have hcount' : countPair
              (queue ++ [⟨c.src, normalizePageUrl c.href, base,
                mkTemplate now target keyword c.src (normalizePageUrl c.href) c⟩]) t p =
              (if (t ++ "|" ++ p) ∈ ((c.src ++ "|" ++ normalizePageUrl c.href) :: seen)
               then 1 else 0) := by
            rw [countPair_append_single, hcount]
            simp [hnotm, hkeyeq, hmatch.1, hmatch.2]
          rw [ih _ _ hbcs hcount']
          apply if_congr _ rfl rfl
          have hm : (t ++ "|" ++ p) ∈ ((c.src ++ "|" ++ normalizePageUrl c.href) :: seen) := by
            rw [hkeyeq]; exact List.mem_cons_self _ _
          have hoc : ∃ x ∈ c :: cs, x.src = t ∧ normalizePageUrl x.href = p :=
            ⟨c, List.mem_cons_self c cs, hmatch⟩
          exact ⟨fun _ => Or.inr hoc, fun _ => Or.inl hm⟩
        · have hne : c.src ++ "|" ++ normalizePageUrl c.href ≠ t ++ "|" ++ p := by
            intro he
            have he' : uniqueUrlKey c.src (normalizePageUrl c.href) = uniqueUrlKey t p := he
            obtain ⟨ha, hb⟩ := uniqueUrlKey_inj hbc ht he'
            exact hmatch ⟨ha, hb⟩
          have hcount' : countPair
              (queue ++ [⟨c.src, normalizePageUrl c.href, base,
                mkTemplate now target keyword c.src (normalizePageUrl c.href) c⟩]) t p =
              (if (t ++ "|" ++ p) ∈ ((c.src ++ "|" ++ normalizePageUrl c.href) :: seen)
               then 1 else 0) := by
            rw [countPair_append_single, hcount]
            have hnp : ¬ (c.src = t ∧ normalizePageUrl c.href = p) := hmatch
            simp only [List.mem_cons]
            rw [if_neg hnp]
            rw [Nat.add_zero]
            apply if_congr _ rfl rfl
            constructor
            · intro hm
              exact Or.inr hm
            · rintro (he | hm)
              · exact absurd he.symm hne
              · exact hm
          rw [ih _ _ hbcs hcount']
          apply if_congr _ rfl rfl
          simp only [List.mem_cons]
          constructor
          · rintro ((he | hm) | ⟨x, hx, hxp⟩)
            · exact absurd he.symm hne
            · exact Or.inl hm
            · exact Or.inr ⟨x, Or.inr hx, hxp⟩
          · rintro (hm | ⟨x, rfl | hx', hxp⟩)
            · exact Or.inl (Or.inr hm)
            · exact absurd hxp hmatch
            · exact Or.inr ⟨x, hx', hxp⟩

/-- C2 (amended): within one discovery run, provided no thumbnail URL in the
run contains the bar character used to build composite keys, every
(thumbnail URL, detail-page URL) pair that is encountered at least once with a
usable http thumbnail puts exactly one task on the download queue, however
many times it reappears across re-parsed snapshots. (The original claim, with
no bar restriction, is refuted by C2_counterexample: the seen set
deduplicates concatenated key strings, and distinct pairs can collide.) -/
theorem C2_amended (now target keyword base : String) (cards : List ImageCard) (t p : String)
    (hbars : ∀ c ∈ cards, '|' ∉ c.src.data)
    (hvalid : pyStartsWith t "http" = true)
    (hocc : ∃ c ∈ cards, c.src = t ∧ normalizePageUrl c.href = p) :
    countPair (discoverCards now target keyword base cards [] []).2 t p = 1 := by
  obtain ⟨c0, hc0, hsrc0, hhref0⟩ := hocc
  have ht : '|' ∉ t.data := hsrc0 ▸ hbars c0 hc0
  have h := discover_countPair_inv now target keyword base t p ht hvalid cards [] []
    hbars (by simp [countPair])
  rw [h, if_pos (Or.inr ⟨c0, hc0, hsrc0, hhref0⟩)]

/-- Witness for C2_amended at a concrete input: one card, encountered once,
yields exactly one queued task for its pair. -/
theorem C2_amended_witness :
    countPair (discoverCards "" "" "" "" [cardY] [] []).2
      "http://a" "http://b|http://c" = 1 :=
  C2_amended "" "" "" "" [cardY] "http://a" "http://b|http://c"
    (by decide) (by decide) (by decide)

/-- C4 (confirmed): when the reference-store lookup returns a record whose
recorded local path no longer exists on disk, the hit is treated as a miss:
the task proceeds as a fresh download (the worker forwards the fetched bytes
instead of using the stale record), and once the analysis stage completes with
a successful persist, both persistent stores hold the re-populated path and
content hash for that reference, the stale entry having been overwritten. -/
theorem C4_self_healing (md5Impl : Bytes → String) (fetch : String → Option Bytes)
    (st : PipelineState) (task : DownloadTask) (info : UrlHistEntry) (b : Bytes)
    (hrec : dictLookup st.url_download_history
      (uniqueUrlKey task.image_url task.original_page_url) = some info)
    (hstale : pathExists st.fs info.local_path = false)
    (hhttp : pyStartsWith task.image_url "http" = true)
    (hfetch : fetch task.image_url = some b) :
    image_downloader_step fetch st task =
      (st, some ⟨b, task.image_url, task.original_page_url, task.base_folder_path,
                 fileExtensionOf task.image_url, task.template⟩) ∧
    dictLookup (md5_analyzer_step md5Impl true st
        ⟨b, task.image_url, task.original_page_url, task.base_folder_path,
         fileExtensionOf task.image_url, task.template⟩).url_download_history
      (uniqueUrlKey task.image_url task.original_page_url) =
      some ⟨canonicalPath task.base_folder_path (md5Impl b) (fileExtensionOf task.image_url),
            md5Impl b⟩ ∧
    dictLookup (md5_analyzer_step md5Impl true st
        ⟨b, task.image_url, task.original_page_url, task.base_folder_path,
         fileExtensionOf task.image_url, task.template⟩).download_history (md5Impl b) =
      some (canonicalPath task.base_folder_path (md5Impl b) (fileExtensionOf task.image_url)) := by
  have hmiss : validCacheHit st (uniqueUrlKey task.image_url task.original_page_url) = none := by
    unfold validCacheHit
    simp [hrec, hstale]
  have hboth : (md5_analyzer_step md5Impl true st
        ⟨b, task.image_url, task.original_page_url, task.base_folder_path,
         fileExtensionOf task.image_url, task.template⟩).url_download_history =
      dictInsert st.url_download_history
        (uniqueUrlKey task.image_url task.original_page_url)
        ⟨canonicalPath task.base_folder_path (md5Impl b) (fileExtensionOf task.image_url),
         md5Impl b⟩ ∧
      (md5_analyzer_step md5Impl true st
        ⟨b, task.image_url, task.original_page_url, task.base_folder_path,
         fileExtensionOf task.image_url, task.template⟩).download_history =
      dictInsert st.download_history (md5Impl b)
        (canonicalPath task.base_folder_path (md5Impl b) (fileExtensionOf task.image_url)) := by
    by_cases hpe : pathExists st.fs
        (canonicalPath task.base_folder_path (md5Impl b) (fileExtensionOf task.image_url)) = true
    · rw [md5_analyzer_step_exists md5Impl true st _ hpe]
      exact ⟨rfl, rfl⟩
    · rw [md5_analyzer_step_write md5Impl st _ (by simpa using hpe)]
      exact ⟨rfl, rfl⟩
  refine ⟨image_downloader_step_forward fetch st task b hmiss hhttp hfetch, ?_, ?_⟩
  · rw [hboth.1, dictLookup_insert_self]
  · rw [hboth.2, dictLookup_insert_self]

/-- Pipeline state for the C4 witness: the reference store has a record for
the task of taskJpg, but its recorded path is absent from the (empty) disk. -/
def staleState : PipelineState :=
  ⟨[], [], [("http://e.com/a.jpg|http://e.com/p1", ⟨"/old/gone.jpg", "oldmd5"⟩)], []⟩

/-- Witness for C4_self_healing at a concrete input. -/
theorem C4_self_healing_witness :
    image_downloader_step fetchSameBytes staleState taskJpg =
      (staleState, some ⟨[1, 2, 3], "http://e.com/a.jpg", "http://e.com/p1", "/img",
                         fileExtensionOf "http://e.com/a.jpg", blankRow⟩) ∧
    dictLookup (md5_analyzer_step md5Fix true staleState
        ⟨[1, 2, 3], "http://e.com/a.jpg", "http://e.com/p1", "/img",
         fileExtensionOf "http://e.com/a.jpg", blankRow⟩).url_download_history
      (uniqueUrlKey "http://e.com/a.jpg" "http://e.com/p1") =
      some ⟨canonicalPath "/img" (md5Fix [1, 2, 3]) (fileExtensionOf "http://e.com/a.jpg"),
            md5Fix [1, 2, 3]⟩ ∧
    dictLookup (md5_analyzer_step md5Fix true staleState
        ⟨[1, 2, 3], "http://e.com/a.jpg", "http://e.com/p1", "/img",
         fileExtensionOf "http://e.com/a.jpg", blankRow⟩).download_history (md5Fix [1, 2, 3]) =
      some (canonicalPath "/img" (md5Fix [1, 2, 3]) (fileExtensionOf "http://e.com/a.jpg")) :=
  C4_self_healing md5Fix fetchSameBytes staleState taskJpg ⟨"/old/gone.jpg", "oldmd5"⟩ [1, 2, 3]
    (by decide) (by decide) (by decide) rfl

/-- C5 (confirmed): a download task with no valid cache hit whose network
fetch fails is dropped: the worker emits no ResultRow, mutates neither store
nor the disk (the state is returned unchanged), forwards nothing, does not
retry the task, and goes on processing the remaining queued tasks exactly as
if the failed task had not been there. -/
theorem C5_fetch_failure (fetch : String → Option Bytes) (st : PipelineState)
    (task : DownloadTask) (rest : List DownloadTask)
    (hmiss : validCacheHit st (uniqueUrlKey task.image_url task.original_page_url) = none)
    (_hhttp : pyStartsWith task.image_url "http" = true)
    (hfail : fetch task.image_url = none) :
    image_downloader_step fetch st task = (st, none) ∧
    runDownloader fetch st (task :: rest) = runDownloader fetch st rest := by
  have h := image_downloader_step_drop fetch st task hmiss hfail
  refine ⟨h, ?_⟩
  show (match image_downloader_step fetch st task with
        | (st1, none) => runDownloader fetch st1 rest
        | (st1, some m) =>
          let r := runDownloader fetch st1 rest
          (r.1, m :: r.2)) = runDownloader fetch st rest
  rw [h]

/-- Network collaborator that fails every fetch. -/
def fetchAlwaysFails : String → Option Bytes := fun _ => none

/-- Witness for C5_fetch_failure at a concrete input. -/
theorem C5_fetch_failure_witness :
    image_downloader_step fetchAlwaysFails emptyState taskJpg = (emptyState, none) ∧
    runDownloader fetchAlwaysFails emptyState [taskJpg, taskPng] =
      runDownloader fetchAlwaysFails emptyState [taskPng] :=
  C5_fetch_failure fetchAlwaysFails emptyState taskJpg [taskPng] rfl (by decide) rfl

/-- C6 (confirmed): when the content-hash store maps the new content hash to a
path that exists on disk and equals the canonical path of the task, the
analysis worker performs no file write (the disk is unchanged) and still
publishes exactly the completed ResultRow pointing at that path. -/
theorem C6_content_dedup (md5Impl : Bytes → String) (writeOk : Bool)
    (st : PipelineState) (m : Md5Task) (P : String)
    (hstore : dictLookup st.download_history (md5Impl m.image_bytes) = some P)
    (hexists : pathExists st.fs P = true)
    (hcanon : P = canonicalPath m.base_folder_path (md5Impl m.image_bytes) m.file_extension) :
    (md5_analyzer_step md5Impl writeOk st m).fs = st.fs ∧
    (md5_analyzer_step md5Impl writeOk st m).results =
      st.results ++ [filledRow m.template P (md5Impl m.image_bytes)] := by
  have hpe : pathExists st.fs
      (canonicalPath m.base_folder_path (md5Impl m.image_bytes) m.file_extension) = true :=
    hcanon ▸ hexists
  rw [md5_analyzer_step_exists md5Impl writeOk st m hpe]
  exact ⟨rfl, by subst hcanon; rfl⟩

/-- Digest instance for the C6 witness. -/
def md5H : Bytes → String := fun _ => "h"

/-- Pipeline state for the C6 witness: the content-hash store already maps the
hash to the canonical path, and the file exists on disk. -/
def dedupState : PipelineState :=
  ⟨[("/img/h.jpg", [1, 2, 3])], [("h", "/img/h.jpg")], [], []⟩

/-- Analysis task for the C6 witness. -/
def dedupTask : Md5Task := ⟨[1, 2, 3], "http://e.com/a.jpg", "http://p", "/img", "jpg", blankRow⟩

/-- Witness for C6_content_dedup at a concrete input. -/
theorem C6_content_dedup_witness :
    (md5_analyzer_step md5H true dedupState dedupTask).fs = dedupState.fs ∧
    (md5_analyzer_step md5H true dedupState dedupTask).results =
      dedupState.results ++ [filledRow blankRow "/img/h.jpg" (md5H [1, 2, 3])] :=
  C6_content_dedup md5H true dedupState dedupTask "/img/h.jpg"
    (by decide) (by decide) (by decide)

/-- C7 (confirmed): processing any download task end to end appends exactly
one ResultRow to the shared result collection when the task is successfully
resolved (valid reference-cache hit, or fetch plus persist succeeding) and
exactly zero rows when the task is dropped for any failure (fetch failure,
disk-write failure, or unusable URL); rows are only ever appended, so no
partial or placeholder row exists for failed tasks. -/
theorem C7_exactly_one_row (md5Impl : Bytes → String) (fetch : String → Option Bytes)
    (writeOk : Bool) (st : PipelineState) (task : DownloadTask) :
    ∃ newRows : List ResultRow,
      (processTask md5Impl fetch writeOk st task).results = st.results ++ newRows ∧
      newRows.length = (taskResolved md5Impl fetch writeOk st task).toNat := by
  cases hv : validCacheHit st (uniqueUrlKey task.image_url task.original_page_url) with
  | some info =>
    have hres : taskResolved md5Impl fetch writeOk st task = (info.local_path != "") := by
      unfold taskResolved
      simp only [hv]
    rw [processTask_step_none md5Impl fetch writeOk st _ task
      (image_downloader_step_hit fetch st task info hv)]
    by_cases hlp : info.local_path ≠ ""
    · refine ⟨[filledRow task.template info.local_path info.image_md5], ?_, ?_⟩
      · rw [if_pos hlp]
      · rw [hres]
        have hb : (info.local_path != "") = true := by simp [hlp]
        rw [hb]
        rfl
    · refine ⟨[], ?_, ?_⟩
      · rw [if_neg hlp]
        simp
      · rw [hres]
        simp at hlp
        simp [hlp]
  | none =>
    by_cases hh : pyStartsWith task.image_url "http" = true
    · cases hf : fetch task.image_url with
      | some b =>
        have hres : taskResolved md5Impl fetch writeOk st task =
            (pathExists st.fs
              (canonicalPath task.base_folder_path (md5Impl b) (fileExtensionOf task.image_url))
             || writeOk) := by
          unfold taskResolved
          simp only [hv, hh, hf, if_true]
        rw [processTask_step_some md5Impl fetch writeOk st st task _
          (image_downloader_step_forward fetch st task b hv hh hf)]
        by_cases hpe : pathExists st.fs
            (canonicalPath task.base_folder_path (md5Impl b) (fileExtensionOf task.image_url)) = true
        · rw [md5_analyzer_step_exists md5Impl writeOk st _ hpe]
          refine ⟨[filledRow task.template
            (canonicalPath task.base_folder_path (md5Impl b) (fileExtensionOf task.image_url))
            (md5Impl b)], rfl, ?_⟩
          rw [hres, hpe]
          simp
        · have hpe' : pathExists st.fs
              (canonicalPath task.base_folder_path (md5Impl b) (fileExtensionOf task.image_url)) = false := by
            simpa using hpe
          cases writeOk with
          | true =>
            rw [md5_analyzer_step_write md5Impl st _ hpe']
            refine ⟨[filledRow task.template
              (canonicalPath task.base_folder_path (md5Impl b) (fileExtensionOf task.image_url))
              (md5Impl b)], rfl, ?_⟩
            rw [hres, hpe']
            simp
          | false =>
            rw [md5_analyzer_step_writefail md5Impl st _ hpe']
            refine ⟨[], by simp, ?_⟩
            rw [hres, hpe']
            simp
      | none =>
        have hres : taskResolved md5Impl fetch writeOk st task = false := by
          unfold taskResolved
          simp only [hv, hh, hf, if_true]
        rw [processTask_step_none md5Impl fetch writeOk st st task
          (image_downloader_step_drop fetch st task hv hf)]
        refine ⟨[], by simp, ?_⟩
        rw [hres]
        rfl
    · have hres : taskResolved md5Impl fetch writeOk st task = false := by
        unfold taskResolved
        simp [hv, hh]
      have hstep : image_downloader_step fetch st task = (st, none) := by
        unfold image_downloader_step
        simp only [hv]
        simp [hh]
      rw [processTask_step_none md5Impl fetch writeOk st st task hstep]
      refine ⟨[], by simp, ?_⟩
      rw [hres]
      rfl

/-- Reading the thumbnail column of a standard four-cell history row. -/
lemma rowGet_thumb (a b c d : String) :
    rowGet historyHeaders [a, b, c, d] "Thumbnail URL" = a := rfl

/-- Reading the page-URL column of a standard four-cell history row. -/
lemma rowGet_orig (a b c d : String) :
    rowGet historyHeaders [a, b, c, d] "Original Page URL" = b := rfl

/-- Reading the local-path column of a standard four-cell history row. -/
lemma rowGet_path (a b c d : String) :
    rowGet historyHeaders [a, b, c, d] "Local Image Path" = c := rfl

/-- Reading the md5 column of a standard four-cell history row. -/
lemma rowGet_md5 (a b c d : String) :
    rowGet historyHeaders [a, b, c, d] "MD5 (Content)" = d := rfl

/-- Splitting at the first separator and joining the two parts around it
reproduces the original character list. -/
lemma pySplitOnce_recompose {sep : Char} : ∀ (l a b : List Char),
    pySplitOnce sep l = some (a, b) → l = a ++ sep :: b := by
  intro l
  induction l with
  | nil => intro a b h; exact absurd h (by simp [pySplitOnce])
  | cons c cs ih =>
    intro a b h
    unfold pySplitOnce at h
    by_cases hc : c = sep
    · rw [if_pos hc] at h
      simp only [Option.some.injEq, Prod.mk.injEq] at h
      obtain ⟨rfl, rfl⟩ := h
      rw [hc]
      rfl
    · rw [if_neg hc] at h
      cases hr : pySplitOnce sep cs with
      | none => rw [hr] at h; exact absurd h (by simp)
      | some p =>
        obtain ⟨pa, pb⟩ := p
        rw [hr] at h
        simp only [Option.some.injEq, Prod.mk.injEq] at h
        obtain ⟨rfl, rfl⟩ := h
        rw [ih pa pb hr]
        rfl

/-- Joining the two components produced by splitFirstBar around the bar
reproduces the original key. -/
lemma splitFirstBar_recompose {k a b : String} (h : splitFirstBar k = some (a, b)) :
    a ++ "|" ++ b = k := by
  unfold splitFirstBar at h
  cases hr : pySplitOnce '|' k.data with
  | none => rw [hr] at h; exact absurd h (by simp)
  | some p =>
    obtain ⟨pa, pb⟩ := p
    rw [hr] at h
    simp only [Option.some.injEq, Prod.mk.injEq] at h
    obtain ⟨ha, hb⟩ := h
    have hk := pySplitOnce_recompose k.data pa pb hr
    apply String.ext
    rw [← ha, ← hb,
      show String.mk pa ++ "|" ++ String.mk pb =
        uniqueUrlKey (String.mk pa) (String.mk pb) from rfl,
      uniqueUrlKey_data]
    exact hk.symm

/-- saveRows succeeds whenever every key carries a bar separator. -/
lemma saveRows_total : ∀ (S : Dict UrlHistEntry),
    (∀ q ∈ S, ∃ a b, splitFirstBar q.1 = some (a, b)) →
    ∃ rows, saveRows S = some rows := by
  intro S
  induction S with
  | nil => intro _; exact ⟨[], rfl⟩
  | cons e S ih =>
    obtain ⟨k, d⟩ := e
    intro h
    obtain ⟨a, b, hsplit⟩ := h (k, d) (List.mem_cons_self _ _)
    obtain ⟨rs, hrs⟩ := ih (fun q hq => h q (List.mem_cons_of_mem (k, d) hq))
    refine ⟨[a, b, d.local_path, d.image_md5] :: rs, ?_⟩
    unfold saveRows
    rw [hsplit, hrs]

/-- One unfolding step of loadRows on a non-empty row list. -/
lemma loadRows_cons (header : List String) (acc : Dict UrlHistEntry)
    (row : List String) (rest : List (List String)) :
    loadRows header acc (row :: rest) =
      if rowGet header row "Thumbnail URL" ≠ "" ∧ rowGet header row "Original Page URL" ≠ "" ∧
          rowGet header row "Local Image Path" ≠ "" then
        loadRows header
          (dictInsert acc
            (rowGet header row "Thumbnail URL" ++ "|" ++ rowGet header row "Original Page URL")
            ⟨rowGet header row "Local Image Path", rowGet header row "MD5 (Content)"⟩) rest
      else loadRows header acc rest := rfl

/-- Loading the rows produced by saveRows extends the accumulator with exactly
the serialized store, provided the store keys are distinct, absent from the
accumulator, and well formed. -/
lemma loadRows_saveRows : ∀ (S acc : Dict UrlHistEntry) (rows : List (List String)),
    (S.map Prod.fst).Nodup →
    (∀ q ∈ S, dictLookup acc q.1 = none) →
    (∀ q ∈ S, ∃ a b, splitFirstBar q.1 = some (a, b) ∧ a ≠ "" ∧ b ≠ "" ∧ q.2.local_path ≠ "") →
    saveRows S = some rows →
    loadRows historyHeaders acc rows = acc ++ S := by
  intro S
  induction S with
  | nil =>
    intro acc rows _ _ _ hs
    simp only [saveRows, Option.some.injEq] at hs
    subst hs
    simp [loadRows]
  | cons e S ih =>
    obtain ⟨k, d⟩ := e
    intro acc rows hnodup hfresh hkeys hs
    obtain ⟨a, b, hsplit, ha, hb, hlp⟩ := hkeys (k, d) (List.mem_cons_self _ _)
    unfold saveRows at hs
    rw [hsplit] at hs
    cases hrest : saveRows S with
    | none => rw [hrest] at hs; exact absurd hs (by simp)
    | some rs =>
      rw [hrest] at hs
      simp only [Option.some.injEq] at hs
      subst hs
      rw [loadRows_cons, rowGet_thumb, rowGet_orig, rowGet_path, rowGet_md5,
        if_pos ⟨ha, hb, hlp⟩, splitFirstBar_recompose hsplit,
        dictInsert_fresh acc k ⟨d.local_path, d.image_md5⟩ (hfresh (k, d) (List.mem_cons_self _ _))]
      show loadRows historyHeaders (acc ++ [(k, d)]) rs = acc ++ (k, d) :: S
      have hnodup2 : (k :: S.map Prod.fst).Nodup := hnodup
      have hknotinS : k ∉ S.map Prod.fst := (List.nodup_cons.mp hnodup2).1
      have hnodup' : (S.map Prod.fst).Nodup := (List.nodup_cons.mp hnodup2).2
      have hfresh' : ∀ q ∈ S, dictLookup (acc ++ [(k, d)]) q.1 = none := by
        intro q hq
        rw [dictLookup_append, hfresh q (List.mem_cons_of_mem (k, d) hq)]
        have hkq : k ≠ q.1 := fun hkq => hknotinS (hkq ▸ List.mem_map_of_mem Prod.fst hq)
        simp [dictLookup, hkq]
      have hkeys' : ∀ q ∈ S, ∃ a b, splitFirstBar q.1 = some (a, b) ∧ a ≠ "" ∧ b ≠ "" ∧
          q.2.local_path ≠ "" := fun q hq => hkeys q (List.mem_cons_of_mem (k, d) hq)
      rw [ih (acc ++ [(k, d)]) rs hnodup' hfresh' hkeys' hrest]
      simp

/-- C8 (confirmed): for a reference-hash store whose entries are well formed
(every composite key splits at a bar into a non-empty thumbnail URL and a
non-empty page URL, every recorded local path is non-empty, keys distinct as
in a dict), saving the store to the tabular sheet and loading that sheet back
reproduces the identical in-memory mapping, md5 values included, with no
warnings. -/
theorem C8_roundtrip (S : Dict UrlHistEntry)
    (hnodup : (S.map Prod.fst).Nodup)
    (hkeys : ∀ q ∈ S, ∃ a b, splitFirstBar q.1 = some (a, b) ∧ a ≠ "" ∧ b ≠ "" ∧
      q.2.local_path ≠ "") :
    ∃ sheet, save_url_history S = some sheet ∧
      load_url_history [] (some (Except.ok sheet)) = (S, []) := by
  obtain ⟨rows, hrows⟩ := saveRows_total S
    (fun q hq => (hkeys q hq).imp (fun a h => h.imp (fun b h => h.1)))
  refine ⟨⟨historyHeaders, rows⟩, ?_, ?_⟩
  · unfold save_url_history
    rw [hrows]
    rfl
  · show (loadRows historyHeaders [] rows, ([] : List String)) = (S, [])
    rw [loadRows_saveRows S [] rows hnodup (fun q _ => rfl) hkeys hrows]
    simp

/-- Concrete reference-hash store for the C8 witness. -/
def storeW : Dict UrlHistEntry :=
  [("http://t|http://p", ⟨"/a/b.jpg", "m1"⟩), ("http://t2|http://p2", ⟨"/a/c.jpg", ""⟩)]

/-- Witness for C8_roundtrip at a concrete two-entry store. -/
theorem C8_roundtrip_witness :
    ∃ sheet, save_url_history storeW = some sheet ∧
      load_url_history [] (some (Except.ok sheet)) = (storeW, []) :=
  C8_roundtrip storeW (by decide) (by
    intro q hq
    rcases List.mem_cons.mp hq with rfl | hq
    · exact ⟨"http://t", "http://p", by decide⟩
    rcases List.mem_cons.mp hq with rfl | hq
    · exact ⟨"http://t2", "http://p2", by decide⟩
    · exact absurd hq (List.not_mem_nil q))

/-- Row filtering commutes with loading: rows that fail the well-formedness
check contribute nothing to the loaded store. -/
lemma loadRows_filter (header : List String) : ∀ (rows : List (List String))
    (acc : Dict UrlHistEntry),
    loadRows header acc rows = loadRows header acc (rows.filter (wellFormedRow header)) := by
  intro rows
  induction rows with
  | nil => intro acc; rfl
  | cons row rest ih =>
    intro acc
    by_cases h : rowGet header row "Thumbnail URL" ≠ "" ∧
        rowGet header row "Original Page URL" ≠ "" ∧ rowGet header row "Local Image Path" ≠ ""
    · have hw : wellFormedRow header row = true := by
        unfold wellFormedRow
        exact decide_eq_true h
      rw [List.filter_cons_of_pos hw, loadRows_cons, loadRows_cons, if_pos h, if_pos h]
      exact ih _
    · have hw : wellFormedRow header row = false := by
        unfold wellFormedRow
        exact decide_eq_false h
      rw [List.filter_cons_of_neg (by simp [hw]), loadRows_cons, if_neg h]
      exact ih _

/-- C9 (amended): loading the reference-hash store never raises: a file whose
workbook cannot be read yields the empty store plus one logged warning and the
process continues; a readable sheet is loaded with malformed rows (any of the
thumbnail URL, page URL or local path cells empty) individually and silently
dropped, loading exactly as the sheet with only its well-formed rows; an empty
rows list leaves the store as initialized. (The original claim is refuted by
C9_counterexample in two respects: no per-row warning is emitted for a dropped
malformed row, and no composite key is parsed back into two URL components on
load, the row cells being validated individually instead.) -/
theorem C9_amended :
    (∀ init : Dict UrlHistEntry,
      load_url_history init (some (Except.error ())) = ([], [loadFailWarning])) ∧
    (∀ sheet : Sheet,
      load_url_history [] (some (Except.ok sheet)) =
        load_url_history [] (some (Except.ok
          ⟨sheet.header, sheet.rows.filter (wellFormedRow sheet.header)⟩))) ∧
    (∀ (header : List String) (init : Dict UrlHistEntry),
      load_url_history init (some (Except.ok ⟨header, []⟩)) = (init, [])) := by
  refine ⟨fun init => rfl, fun sheet => ?_, fun header init => rfl⟩
  show (loadRows sheet.header [] sheet.rows, ([] : List String)) =
    (loadRows sheet.header [] (sheet.rows.filter (wellFormedRow sheet.header)), [])
  rw [loadRows_filter sheet.header sheet.rows []]

/-- C9 counterexample: a sheet with one malformed row (missing local path).
Loading drops the row, yielding the empty store, but the warning list is
empty: the code logs no warning for an individually dropped malformed row,
contradicting the claim that malformed rows are dropped with a warning. -/
theorem C9_counterexample :
    wellFormedRow historyHeaders ["http://t", "http://p", "", ""] = false ∧
    load_url_history []
      (some (Except.ok ⟨historyHeaders, [["http://t", "http://p", "", ""]]⟩)) = ([], []) := by
  decide
